import Mathlib

/-!
Verification of the standings pipeline of `nba_standings_bot.py`.

The development shallowly embeds the functions of the script that the
specification's claims are about: the JSON row extractor
(`_entries_to_rows` and its helpers `_stats_to_map`, `pct`), the
conference partitioner (`fetch_espn_standings_json`, modelled as
`gatherNodes` plus `step1`–`step4`), the rank-and-trend engine
(`attach_trend`, `norm_team_key`), the trend glyph (`arrow`) and the
HTTP degradation behaviour (`_get_json`, `fetch_bbr_positions`).

JSON documents are embedded as the inductive type `J`; Python-level
behaviour that the script relies on (truthiness, `dict.get`, `or`
chains, `int()` / `float()` conversions, iteration, `list.extend`) is
embedded by small helper functions.  A Python exception escaping the
modelled code is represented by an `Option` result of `none`.  Two
deliberate coarsenings, noted at the definitions concerned: numeric
values are embedded as exact rationals, and a truthy non-string value
flowing into a name position (where the script would later fail with a
`TypeError`/`AttributeError` on `.lower()` or string comparison) is
folded into the failure case at the point the name is read.
-/

/-- JSON-like values as produced by `requests.Response.json()`:
Python `None`, `bool`, numbers (`int`/`float`, embedded as exact
rationals), `str`, `list`, and `dict` (association list in insertion
order; keys of a Python dict are distinct). -/
inductive J where
  | null
  | bool (b : Bool)
  | num (q : ℚ)
  | str (s : String)
  | arr (xs : List J)
  | obj (kvs : List (String × J))
deriving Repr

/-- Python truthiness `bool(x)` for embedded values. -/
def jTruthy : J → Bool
  | .null => false
  | .bool b => b
  | .num q => decide (q ≠ 0)
  | .str s => decide (s ≠ "")
  | .arr [] => false
  | .arr (_ :: _) => true
  | .obj [] => false
  | .obj (_ :: _) => true

/-- Raw field lookup on a dict: `none` means the key is absent (a stored
JSON `null` is returned as `some J.null`). -/
def jGet (kvs : List (String × J)) (k : String) : Option J :=
  match kvs with
  | [] => none
  | (k', v) :: rest => if k' = k then some v else jGet rest k

/-- A stored JSON `null` is Python `None`. -/
def jFlat : J → Option J
  | .null => none
  | v => some v

/-- Python `d.get(k)`: `None` both for an absent key and a stored `null`. -/
def pyGet (kvs : List (String × J)) (k : String) : Option J :=
  (jGet kvs k).bind jFlat

/-- Truthiness of a `d.get` result (`None` is falsy). -/
def truthyO : Option J → Bool
  | some v => jTruthy v
  | none => false

/-- Python `x or y` on two `d.get` results. -/
def pyOr (a b : Option J) : Option J :=
  if truthyO a then a else b

/-- Python `x or dflt` with a non-`None` literal default (such as
`e.get("team") or {}` and `st.get("entries") or []`). -/
def pyOrJ (a : Option J) (dflt : J) : J :=
  match a with
  | some v => if jTruthy v then v else dflt
  | none => dflt

/-- Result of a name chain `a or b or ... or dflt` that the script then
uses as a string: the first truthy operand if it is a string, the
default if every operand is falsy, and `none` (modelled failure) if the
first truthy operand is not a string — the script would later raise on
`.lower()` or on comparison when such a value is used as a name. -/
def pyStrOr (a : Option J) (dflt : Option String) : Option String :=
  match a with
  | some v =>
    if jTruthy v then
      match v with
      | .str s => some s
      | _ => none
    else dflt
  | none => dflt

/-- Characters stripped by Python `str.strip()` (ASCII whitespace). -/
def isWsChar (c : Char) : Bool :=
  c = ' ' || c = '\t' || c = '\n' || c = '\r' || c = '\x0b' || c = '\x0c'

/-- Strip leading and trailing whitespace. -/
def stripChars (cs : List Char) : List Char :=
  ((cs.dropWhile isWsChar).reverse.dropWhile isWsChar).reverse

/-- Value of a string of ASCII digits. -/
def digitsToNat (cs : List Char) : Nat :=
  cs.foldl (fun a c => a * 10 + (c.toNat - 48)) 0

/-- A nonempty all-digit string, or `none`. -/
def digitsVal? (cs : List Char) : Option Nat :=
  match cs with
  | [] => none
  | _ => if cs.all Char.isDigit then some (digitsToNat cs) else none

/-- Python `int(s)` on a string: optional surrounding whitespace,
optional sign, nonempty decimal digits; anything else raises
(`none`).  Underscore separators and non-ASCII digits, which CPython
also accepts, are outside the model. -/
def pyIntStr (s : String) : Option Int :=
  match stripChars s.data with
  | '+' :: rest => (digitsVal? rest).map (fun n => (n : Int))
  | '-' :: rest => (digitsVal? rest).map (fun n => -(n : Int))
  | cs => (digitsVal? cs).map (fun n => (n : Int))

/-- Exponent digits of a float literal, as the scale factor `10 ^ e`
(`mkRat` is the exact rational quotient; kernel-evaluable, unlike
`Rat.div`). -/
def expDigits (cs : List Char) : Option ℚ :=
  match cs with
  | '+' :: rest => (digitsVal? rest).map (fun n => ((10 ^ n : Nat) : ℚ))
  | '-' :: rest => (digitsVal? rest).map (fun n => mkRat 1 (10 ^ n))
  | _ => (digitsVal? cs).map (fun n => ((10 ^ n : Nat) : ℚ))

/-- Optional exponent suffix of a float literal (empty means `10 ^ 0`). -/
def expPart (cs : List Char) : Option ℚ :=
  match cs with
  | [] => some 1
  | 'e' :: rest => expDigits rest
  | 'E' :: rest => expDigits rest
  | _ => none

/-- Value of the digit groups `ip . fp` of a float literal, the exact
rational `ip + fp / 10 ^ |fp|`. -/
def mantissa (ip fp : List Char) : ℚ :=
  (digitsToNat ip : ℚ) + mkRat (digitsToNat fp) (10 ^ fp.length)

/-- Unsigned body of a Python float literal: digits, optionally a dot
and further digits (at least one digit in total), and an optional
exponent. -/
def floatBody (cs : List Char) : Option ℚ :=
  let ip := cs.takeWhile Char.isDigit
  let rest1 := cs.dropWhile Char.isDigit
  match rest1 with
  | '.' :: rest2 =>
    let fp := rest2.takeWhile Char.isDigit
    let rest3 := rest2.dropWhile Char.isDigit
    if ip.isEmpty && fp.isEmpty then none
    else (expPart rest3).map (fun e => mantissa ip fp * e)
  | _ =>
    if ip.isEmpty then none
    else (expPart rest1).map (fun e => (digitsToNat ip : ℚ) * e)

/-- Python `float(s)` on a string: optional surrounding whitespace,
optional sign, decimal literal with optional fraction and exponent;
anything else raises (`none`).  The `inf`/`nan` spellings are outside
the model. -/
def pyFloatStr (s : String) : Option ℚ :=
  match stripChars s.data with
  | '+' :: rest => floatBody rest
  | '-' :: rest => (floatBody rest).map Neg.neg
  | cs => floatBody cs

/-- Python `float(x)`: numbers and booleans convert, strings are parsed,
everything else raises (`none`). -/
def pyFloat : J → Option ℚ
  | .num q => some q
  | .bool b => some (if b then 1 else 0)
  | .str s => pyFloatStr s
  | _ => none

/-- Python `int(x)`: numbers truncate toward zero, booleans convert,
strings are parsed, everything else raises (`none`). -/
def pyInt : J → Option Int
  | .num q => some (q.num.tdiv (q.den : Int))
  | .bool b => some (if b then 1 else 0)
  | .str s => pyIntStr s
  | _ => none

/-- Lines 40–41: `norm_team_key(name)` — lowercase the name, keep only
alphanumeric characters.  Python's Unicode `str.lower`/`str.isalnum`
are embedded by Lean's ASCII `Char.toLower`/`Char.isAlphanum`; the team
names fed to this function are ASCII. -/
def norm_team_key (name : String) : String :=
  String.mk ((name.data.map Char.toLower).filter Char.isAlphanum)

/-- Lines 43–45: `pct(w, l)` — win fraction, `0.0` for zero games.
The Python float quotient `w / g` is embedded as the exact rational,
written `mkRat w g` (kernel-evaluable); `pct_eq_div` proves it equal
to the field quotient. -/
def pct (w l : Int) : ℚ :=
  if w + l > 0 then mkRat w (w + l).toNat else 0

/-- Lines 47–54: `arrow(delta_places)` — the trend glyph. -/
def arrow (delta_places : Option Int) : String :=
  match delta_places with
  | none => "⚪︎="
  | some d =>
    if d > 0 then "🟢▲+" ++ toString d
    else if d < 0 then "🔴▼" ++ toString d.natAbs
    else "⚪︎="

/-- One row of the standings table, the dict
`{"team", "abbr", "w", "l", "pct"}` built by `_entries_to_rows`,
together with the `rank` and `delta_places` fields added later
(`rank := 0` and `delta_places := none` stand for the keys not yet
being present). -/
structure Row where
  team : String
  abbr : String
  w : Int
  l : Int
  pct : ℚ
  rank : Nat
  delta_places : Option Int
deriving Repr, DecidableEq

/-- Lexicographic code-point comparison of character lists: `≤` as
Python compares strings.  (Kernel-evaluable, unlike the iterator-based
decidability of `String.le`; `pyStrLe_iff` proves them equivalent.) -/
def strLeChars : List Char → List Char → Bool
  | [], _ => true
  | _ :: _, [] => false
  | a :: as, b :: bs => if a = b then strLeChars as bs else decide (a < b)

/-- Python `s <= t` on strings, by code points. -/
def pyStrLe (s t : String) : Bool :=
  strLeChars s.data t.data

/-- The standings sort key `lambda x: (-x["pct"], -x["w"], x["team"])`
compared lexicographically: `rowLe a b` holds when `a`'s key is at most
`b`'s key, so that sorting ascending by key ranks higher win percentage
(then more wins, then lexicographically smaller name) first. -/
def rowLe (a b : Row) : Bool :=
  if a.pct = b.pct then
    if a.w = b.w then pyStrLe a.team b.team
    else decide (b.w < a.w)
  else decide (b.pct < a.pct)

/-- Python's `sorted(rows, key=...)`, a stable sort by the standings
key.  A stable sort is uniquely determined by the total key preorder
(equal keys keep their input order), so it is embedded here by the
structurally recursive — hence kernel-evaluable — stable
`List.insertionSort`. -/
def pySorted (l : List Row) : List Row :=
  l.insertionSort (fun a b => rowLe a b = true)

/-- Lines 267–274: `attach_trend(current_rows, yesterday_positions)` —
sort by the standings key, assign 1-based ranks, and set
`delta_places` from yesterday's position looked up under the
normalized display name. -/
def attach_trend (current_rows : List Row)
    (yesterday_positions : List (String × Nat)) : List Row :=
  ((pySorted current_rows).enumFrom 1).map (fun p =>
    { p.2 with
      rank := p.1
      delta_places :=
        match yesterday_positions.lookup (norm_team_key p.2.team) with
        | none => none
        | some y => some ((y : Int) - (p.1 : Int)) })

/-- Lines 81–88: `_stats_to_map(stats_list)` — build the name-to-value
dict of a stats list.  Iterating a non-dict element raises; an
unhashable (list/dict) truthy name raises at the dict assignment; a
falsy name skips the element.  The dict is an association list with
the newest binding first. -/
def _stats_to_map (stats_list : List J) : Option (List (J × Option J)) :=
  stats_list.foldlM (fun m s =>
    match s with
    | .obj skvs =>
      match pyOr (pyGet skvs "name")
          (pyOr (pyGet skvs "abbreviation") (pyGet skvs "shortDisplayName")) with
      | some v =>
        if jTruthy v then
          match v with
          | .arr _ => none
          | .obj _ => none
          | _ => some ((v,
              match jGet skvs "value" with
              | some w => jFlat w
              | none => pyGet skvs "displayValue") :: m)
        else some m
      | none => some m
    | _ => none) []

/-- `stats.get(k)` on the map built by `_stats_to_map`: the stored value
under the string key `k`, where both an absent key and a stored `None`
give `none`. -/
def statGet (m : List (J × Option J)) (k : String) : Option J :=
  match m.find? (fun p =>
    match p.1 with
    | .str s => decide (s = k)
    | _ => false) with
  | some p => p.2
  | none => none

/-- `int(stats.get(k) or 0)`: a missing or falsy value gives `0`, a
truthy value is converted by `int()` (which can raise). -/
def pyIntOr0 (a : Option J) : Option Int :=
  match a with
  | some v => if jTruthy v then pyInt v else some 0
  | none => some 0

/-- The dict `e.get("team") or {}` of an entry, as its field list;
fails when the entry or a truthy `team` value is not a dict. -/
def teamObjOf (ekvs : List (String × J)) : Option (List (String × J)) :=
  match pyOrJ (pyGet ekvs "team") (.obj []) with
  | .obj tkvs => some tkvs
  | _ => none

/-- `team.get("displayName") or team.get("name") or ""`. -/
def displayOf (tkvs : List (String × J)) : Option String :=
  pyStrOr (pyGet tkvs "displayName") (pyStrOr (pyGet tkvs "name") (some ""))

/-- `team.get("abbreviation") or team.get("shortDisplayName") or display`. -/
def abbrOf (tkvs : List (String × J)) (display : String) : Option String :=
  pyStrOr (pyGet tkvs "abbreviation")
    (pyStrOr (pyGet tkvs "shortDisplayName") (some display))

/-- The list `e.get("stats") or []`: a truthy non-list stats value makes
`_stats_to_map`'s iteration raise on its first element (characters of a
string, keys of a dict, or a non-iterable), so it is folded into the
failure case here. -/
def statsListOf (ekvs : List (String × J)) : Option (List J) :=
  match pyOrJ (pyGet ekvs "stats") (.arr []) with
  | .arr xs => some xs
  | _ => none

/-- The stats map of an entry. -/
def statsMapOf (ekvs : List (String × J)) : Option (List (J × Option J)) :=
  (statsListOf ekvs).bind _stats_to_map

/-- Lines 93–106, the loop body of `_entries_to_rows`: one ESPN entry
to one `{"team", "abbr", "w", "l", "pct"}` row.  `none` models a raised
exception (`e.get` on a non-dict, or a stat value `int()` rejects). -/
def entryToRow? (e : J) : Option Row :=
  match e with
  | .obj ekvs => do
    let tkvs ← teamObjOf ekvs
    let display ← displayOf tkvs
    let abbr ← abbrOf tkvs display
    let m ← statsMapOf ekvs
    let w ← pyIntOr0 (statGet m "wins")
    let l ← pyIntOr0 (statGet m "losses")
    let wp : ℚ :=
      match statGet m "winPercent" with
      | none => pct w l
      | some v =>
        match pyFloat v with
        | some q => q
        | none => pct w l
    pure ⟨display, abbr, w, l, wp, 0, none⟩
  | _ => none

/-- The `for e in entries` loop of `_entries_to_rows`: every entry
appends exactly one row, and an exception aborts the whole call. -/
def rowsOf : List J → Option (List Row)
  | [] => some []
  | e :: rest => do
    let r ← entryToRow? e
    let rs ← rowsOf rest
    pure (r :: rs)

/-- Lines 90–112: `_entries_to_rows(entries)` — build a row per entry,
sort by the standings key, and number the rows with 1-based ranks. -/
def _entries_to_rows (entries : List J) : Option (List Row) :=
  (rowsOf entries).map (fun rows =>
    ((pySorted rows).enumFrom 1).map (fun p => { p.2 with rank := p.1 }))

/-- Lowercasing a whole string, Python `str.lower()` on ASCII text. -/
def pyLowerStr (s : String) : String :=
  String.mk (s.data.map Char.toLower)

/-- Substring test on character lists (Python `"pat" in s`). -/
def listHasSub (p : List Char) : List Char → Bool
  | [] => p.isPrefixOf []
  | c :: rest => p.isPrefixOf (c :: rest) || listHasSub p rest

/-- Python `pat in s` for strings. -/
def strHasSub (pat s : String) : Bool :=
  listHasSub pat.data s.data

/-- The gathering condition of `_gather_standings_nodes` (lines 66–79):
the node has a dict under `"standings"` whose
`entries or groups or []` chain yields a nonempty list. -/
def standingsCond (kvs : List (String × J)) : Bool :=
  match jGet kvs "standings" with
  | some (.obj stkvs) =>
    (match pyOrJ (pyOr (pyGet stkvs "entries") (pyGet stkvs "groups")) (.arr []) with
     | .arr (_ :: _) => true
     | _ => false)
  | _ => false

mutual
/-- Lines 66–79: `_gather_standings_nodes` — pre-order walk of the
document collecting the dicts that satisfy `standingsCond`. -/
def gatherNodes (j : J) : List J :=
  match j with
  | .obj kvs => (if standingsCond kvs then [J.obj kvs] else []) ++ gatherKVs kvs
  | .arr xs => gatherArr xs
  | _ => []
/-- Walk of a dict's values, in insertion order. -/
def gatherKVs (kvs : List (String × J)) : List J :=
  match kvs with
  | [] => []
  | (_, v) :: rest => gatherNodes v ++ gatherKVs rest
/-- Walk of a list's elements, in order. -/
def gatherArr (xs : List J) : List J :=
  match xs with
  | [] => []
  | v :: rest => gatherNodes v ++ gatherArr rest
end

/-- Lines 143–150: `push_by_name(name, entries)` — extract the rows and
replace the east (resp. west) bucket when the lowercased name contains
`"east"` (resp. `"west"`); otherwise leave the buckets unchanged. -/
def push_by_name (name : String) (entries : List J)
    (ew : List Row × List Row) : Option (List Row × List Row) :=
  (_entries_to_rows entries).map (fun rows =>
    let lname := pyLowerStr name
    if strHasSub "east" lname then (rows, ew.2)
    else if strHasSub "west" lname then (ew.1, rows)
    else ew)

/-- One iteration of step 1 (lines 153–158): read the node's name chain
and its `standings.entries`, and push any nonempty entries list. -/
def step1Node (ew : List Row × List Row) (n : J) : Option (List Row × List Row) :=
  match n with
  | .obj kvs =>
    let nameO := pyStrOr (pyGet kvs "name")
      (pyStrOr (pyGet kvs "shortName") (pyStrOr (pyGet kvs "abbreviation") (some "")))
    (match pyOrJ (pyGet kvs "standings") (.obj []) with
     | .obj stkvs =>
       (match pyOrJ (pyGet stkvs "entries") (.arr []) with
        | .arr (x :: xs) =>
          (match nameO with
           | some name => push_by_name name (x :: xs) ew
           | none => none)
        | _ => some ew)
     | _ => none)
  | _ => none

/-- Step 1 (lines 152–158): explicit Eastern/Western blocks among the
gathered nodes. -/
def step1 (nodes : List J) : Option (List Row × List Row) :=
  nodes.foldlM step1Node ([], [])

/-- Membership of a key in a dict's field list. -/
def jHasKey (kvs : List (String × J)) (k : String) : Bool :=
  (jGet kvs k).isSome

/-- Python `k in data`: key test on a dict, membership on a list,
substring on a string, `TypeError` otherwise. -/
def pyContains (data : J) (k : String) : Option Bool :=
  match data with
  | .obj kvs => some (jHasKey kvs k)
  | .arr xs => some (xs.any (fun x =>
      match x with
      | .str s => decide (s = k)
      | _ => false))
  | .str s => some (strHasSub k s)
  | _ => none

/-- Python iteration `for x in v`: list elements, characters of a
string, keys of a dict; everything else is not iterable. -/
def pyIterate (v : J) : Option (List J) :=
  match v with
  | .arr xs => some xs
  | .str s => some (s.data.map (fun c => J.str (String.mk [c])))
  | .obj kvs => some (kvs.map (fun p => J.str p.1))
  | _ => none

/-- The `if entries: push_by_name(name, entries)` pattern of step 2:
a falsy entries value is skipped, a truthy non-list one raises inside
`_entries_to_rows`'s iteration. -/
def step2Push (nameO : Option String) (entriesV : J)
    (ew : List Row × List Row) : Option (List Row × List Row) :=
  if jTruthy entriesV then
    match nameO with
    | some name =>
      (match entriesV with
       | .arr xs => push_by_name name xs ew
       | _ => none)
    | none => none
  else some ew

/-- One `children` element of step 2 (lines 162–173), including its own
nested `children` level. -/
def step2Child (ew : List Row × List Row) (ch : J) : Option (List Row × List Row) :=
  match ch with
  | .obj ckvs =>
    (match pyOrJ (pyGet ckvs "standings") (.obj []) with
     | .obj stkvs => do
       let ew1 ← step2Push (pyStrOr (pyGet ckvs "name") (some ""))
         (pyOrJ (pyGet stkvs "entries") (.arr [])) ew
       match pyIterate (pyOrJ (pyGet ckvs "children") (.arr [])) with
       | none => none
       | some ch2s =>
         ch2s.foldlM (fun ew2 ch2 =>
           match ch2 with
           | .obj c2kvs =>
             (match pyOrJ (pyGet c2kvs "standings") (.obj []) with
              | .obj st2kvs =>
                step2Push (pyStrOr (pyGet c2kvs "name") (some ""))
                  (pyOrJ (pyGet st2kvs "entries") (.arr [])) ew2
              | _ => none)
           | _ => none) ew1
     | _ => none)
  | _ => none

/-- Step 2 (lines 160–173): when a bucket is still empty, look for
`children` (and their `children`) of the top-level document. -/
def step2 (data : J) (e w : List Row) : Option (List Row × List Row) :=
  if e.isEmpty || w.isEmpty then
    match pyContains data "children" with
    | none => none
    | some false => some (e, w)
    | some true =>
      (match data with
       | .obj kvs =>
         (match pyIterate (match jGet kvs "children" with
             | some v => v
             | none => .arr []) with
          | none => none
          | some chs => chs.foldlM step2Child (e, w))
       | _ => none)
  else some (e, w)

/-- Lines 186–196: the conference name attached to one entry's team via
its `groups`/`group` tag; `""` when the tag is missing or has an
unrecognized shape. -/
def teamGroupName (e : J) : Option String :=
  match e with
  | .obj ekvs =>
    (match pyOrJ (pyGet ekvs "team") (.obj []) with
     | .obj tkvs =>
       (match pyOr (pyGet tkvs "groups") (pyGet tkvs "group") with
        | some (.obj gkvs) =>
          pyStrOr (pyGet gkvs "name") (pyStrOr (pyGet gkvs "shortName") (some ""))
        | some (.arr (g :: _)) =>
          (match (if jTruthy g then g else .obj []) with
           | .obj g0kvs =>
             pyStrOr (pyGet g0kvs "name") (pyStrOr (pyGet g0kvs "shortName") (some ""))
           | _ => none)
        | _ => some "")
     | _ => none)
  | _ => none

/-- Python `list.extend(v)`: list elements, characters of a string,
keys of a dict; `TypeError` on a non-iterable. -/
def pyExtend (acc : List J) (v : J) : Option (List J) :=
  match v with
  | .arr xs => some (acc ++ xs)
  | .str s => some (acc ++ s.data.map (fun c => J.str (String.mk [c])))
  | .obj kvs => some (acc ++ kvs.map (fun p => J.str p.1))
  | _ => none

/-- The `all_entries` accumulation of steps 3 and 4 (lines 178–182 and
209–213): extend with each gathered node's `standings.entries or []`. -/
def gatherAllEntries (nodes : List J) : Option (List J) :=
  nodes.foldlM (fun acc n =>
    match n with
    | .obj kvs =>
      (match pyOrJ (pyGet kvs "standings") (.obj []) with
       | .obj stkvs => pyExtend acc (pyOrJ (pyGet stkvs "entries") (.arr []))
       | _ => none)
    | _ => none) []

/-- Step 3 (lines 177–204): split the combined entries by the
conference name attached to each entry's team, filling only the
buckets that are still empty and only from nonempty splits. -/
def step3 (nodes : List J) (e w : List Row) : Option (List Row × List Row) :=
  if e.isEmpty || w.isEmpty then do
    let allE ← gatherAllEntries nodes
    if allE.isEmpty then pure (e, w)
    else do
      let tmp ← allE.foldlM (fun (t : List J × List J) en => do
        let cn ← teamGroupName en
        let ln := pyLowerStr cn
        if strHasSub "east" ln then pure (t.1 ++ [en], t.2)
        else if strHasSub "west" ln then pure (t.1, t.2 ++ [en])
        else pure t) (([], []) : List J × List J)
      let e2 ← if !tmp.1.isEmpty && e.isEmpty then _entries_to_rows tmp.1 else pure e
      let w2 ← if !tmp.2.isEmpty && w.isEmpty then _entries_to_rows tmp.2 else pure w
      pure (e2, w2)
  else pure (e, w)

/-- The combined ranked list of step 4: all gathered entries extracted
and ranked as one group. -/
def entriesRowsAll (nodes : List J) : Option (List Row) :=
  (gatherAllEntries nodes).bind _entries_to_rows

/-- Step 4 (lines 206–217): positional 15/15 fallback when a bucket is
still empty and at least 30 combined rows exist. -/
def step4 (nodes : List J) (e w : List Row) : Option (List Row × List Row) :=
  if e.isEmpty || w.isEmpty then
    (entriesRowsAll nodes).map (fun rall =>
      if rall.length ≥ 30 then (rall.take 15, (rall.drop 15).take 15) else (e, w))
  else pure (e, w)

/-- Lines 135–219: the partitioning part of `fetch_espn_standings_json`
on an already-fetched document; `none` models an uncaught exception
escaping the function. -/
def espnPartition (data : J) : Option (List Row × List Row) := do
  let nodes := gatherNodes data
  let ew1 ← step1 nodes
  let ew2 ← step2 data ew1.1 ew1.2
  let ew3 ← step3 nodes ew2.1 ew2.2
  step4 nodes ew3.1 ew3.2

/-- Outcome of one HTTP request: a raised exception, or a response with
a status code, an optional parsed JSON body (`none` when `.json()`
raises) and the response text. -/
inductive HttpOutcome where
  | exc
  | resp (status : Nat) (body : Option J) (text : String)

/-- Lines 56–63: `_get_json(url)` — `{}` on any exception and on a
non-200 status, the parsed body otherwise. -/
def _get_json : HttpOutcome → J
  | .exc => .obj []
  | .resp status body _ =>
    if status ≠ 200 then .obj []
    else
      match body with
      | some j => j
      | none => .obj []

/-- Lines 120–133 with the partitioning: try the two candidate
endpoints in order, stop at the first truthy JSON, return both groups
empty when neither yields data. -/
def fetchEspn (o1 o2 : HttpOutcome) : Option (List Row × List Row) :=
  let d1 := _get_json o1
  let data := if jTruthy d1 then d1 else _get_json o2
  if jTruthy data then espnPartition data else some ([], [])

/-- Lines 222–264: `fetch_bbr_positions_yesterday` with the
BeautifulSoup table extraction abstracted as the parameter `extract`
(section title and page text to a position map); the degradation paths
checked here are decided by the source before any parsing, and the
whole body is wrapped in a `try` returning empty maps. -/
def fetch_bbr_positions
    (extract : String → String → List (String × Nat)) :
    HttpOutcome → List (String × Nat) × List (String × Nat)
  | .exc => ([], [])
  | .resp status _ text =>
    if status ≠ 200 ∨ text = "" then ([], [])
    else (extract "Eastern Conference" text, extract "Western Conference" text)

/-- A valid code point round-trips through `Char.ofNat`. -/
theorem char_toNat_ofNat_valid (n : Nat) (h : n.isValidChar) :
    (Char.ofNat n).toNat = n := by
  simp only [Char.ofNat, h, dite_true]
  simp [Char.ofNatAux, Char.toNat, UInt32.toNat, BitVec.toNat_ofNatLt]

/-- ASCII lowering is idempotent on characters. -/
theorem char_toLower_toLower (c : Char) : c.toLower.toLower = c.toLower := by
  simp only [Char.toLower]
  by_cases h : c.toNat ≥ 65 ∧ c.toNat ≤ 90
  · rw [if_pos h]
    have hv : (c.toNat + 32).isValidChar := Or.inl (by omega)
    have ht : (Char.ofNat (c.toNat + 32)).toNat = c.toNat + 32 :=
      char_toNat_ofNat_valid _ hv
    rw [if_neg]
    omega
  · rw [if_neg h, if_neg h]

/-- The character-list comparison agrees with the negation of the
lexicographic strict order. -/
theorem strLeChars_iff :
    ∀ (as bs : List Char),
      strLeChars as bs = true ↔ ¬ List.Lex (· < ·) bs as := by
  intro as
  induction as with
  | nil =>
    intro bs
    refine iff_of_true rfl ?_
    intro h
    cases h
  | cons a as ih =>
    intro bs
    cases bs with
    | nil =>
      exact iff_of_false (by simp [strLeChars]) (not_not_intro List.Lex.nil)
    | cons b bs =>
      by_cases hab : a = b
      · subst hab
        rw [show strLeChars (a :: as) (a :: bs) = strLeChars as bs from
          by simp [strLeChars], ih bs]
        constructor
        · intro h hlt
          cases hlt with
          | cons h3 => exact h h3
          | rel h' => exact lt_irrefl a h'
        · intro h h3
          exact h (List.Lex.cons h3)
      · rw [show strLeChars (a :: as) (b :: bs) = decide (a < b) from
          by simp [strLeChars, hab]]
        rcases lt_trichotomy a b with h | h | h
        · refine iff_of_true (by simp [h]) ?_
          intro hlt
          cases hlt with
          | cons _ => exact hab rfl
          | rel h' => exact lt_asymm h h'
        · exact absurd h hab
        · refine iff_of_false (by simp [lt_asymm h]) ?_
          exact not_not_intro (List.Lex.rel h)

/-- The Python code-point comparison agrees with Mathlib's order on
`String`. -/
theorem pyStrLe_iff (s t : String) : pyStrLe s t = true ↔ s ≤ t := by
  rw [show (s ≤ t) = ¬ t < s from rfl, String.lt_iff_toList_lt,
    show (t.toList < s.toList) = List.Lex (· < ·) t.data s.data from rfl]
  exact strLeChars_iff s.data t.data

/-- Unfolding of the standings sort key order into its comparison
chain: higher win percentage first, then more wins, then the
lexicographically smaller display name. -/
theorem rowLe_iff (a b : Row) :
    rowLe a b = true ↔
      (b.pct < a.pct ∨ (a.pct = b.pct ∧
        (b.w < a.w ∨ (a.w = b.w ∧ a.team ≤ b.team)))) := by
  unfold rowLe
  by_cases h1 : a.pct = b.pct
  · by_cases h2 : a.w = b.w
    · simp [h1, h2, lt_irrefl, pyStrLe_iff]
    · simp [h1, h2, lt_irrefl]
  · simp [h1]

/-- Transitivity of the standings sort key order. -/
theorem rowLe_trans (a b c : Row) (hab : rowLe a b = true)
    (hbc : rowLe b c = true) : rowLe a c = true := by
  rw [rowLe_iff] at hab hbc ⊢
  rcases hab with h | ⟨e1, hab⟩
  · rcases hbc with h' | ⟨e2, _⟩
    · exact Or.inl (lt_trans h' h)
    · exact Or.inl (e2 ▸ h)
  · rcases hbc with h' | ⟨e2, hbc⟩
    · exact Or.inl (by rw [e1]; exact h')
    · refine Or.inr ⟨e1.trans e2, ?_⟩
      rcases hab with hw | ⟨ew1, ht1⟩
      · rcases hbc with hw' | ⟨ew2, _⟩
        · exact Or.inl (lt_trans hw' hw)
        · exact Or.inl (ew2 ▸ hw)
      · rcases hbc with hw' | ⟨ew2, ht2⟩
        · exact Or.inl (by rw [ew1]; exact hw')
        · exact Or.inr ⟨ew1.trans ew2, le_trans ht1 ht2⟩

/-- Totality of the standings sort key order. -/
theorem rowLe_total (a b : Row) : (rowLe a b || rowLe b a) = true := by
  simp only [Bool.or_eq_true, rowLe_iff]
  rcases lt_trichotomy a.pct b.pct with h | h | h
  · exact Or.inr (Or.inl h)
  · rcases lt_trichotomy a.w b.w with hw | hw | hw
    · exact Or.inr (Or.inr ⟨h.symm, Or.inl hw⟩)
    · rcases le_total a.team b.team with ht | ht
      · exact Or.inl (Or.inr ⟨h, Or.inr ⟨hw, ht⟩⟩)
      · exact Or.inr (Or.inr ⟨h.symm, Or.inr ⟨hw.symm, ht⟩⟩)
    · exact Or.inl (Or.inr ⟨h, Or.inl hw⟩)
  · exact Or.inl (Or.inl h)

instance : IsTotal Row (fun a b => rowLe a b = true) :=
  ⟨fun a b => by
    have h := rowLe_total a b
    rw [Bool.or_eq_true] at h
    exact h⟩

instance : IsTrans Row (fun a b => rowLe a b = true) :=
  ⟨fun a b c => rowLe_trans a b c⟩

/-- The stable sort permutes its input. -/
theorem pySorted_perm (l : List Row) : (pySorted l).Perm l :=
  List.perm_insertionSort _ l

/-- The stable sort preserves length. -/
theorem pySorted_length (l : List Row) : (pySorted l).length = l.length :=
  (pySorted_perm l).length_eq

/-- The stable sort orders the rows by the standings key. -/
theorem pySorted_sorted (l : List Row) :
    (pySorted l).Pairwise (fun a b => rowLe a b = true) :=
  List.sorted_insertionSort _ l

/-- The second component of an `enumFrom` element is an element of the
underlying list. -/
theorem snd_mem_enumFrom {α : Type _} :
    ∀ (n : ℕ) (l : List α) (p : ℕ × α), p ∈ l.enumFrom n → p.2 ∈ l := by
  intro n l
  induction l generalizing n with
  | nil => intro p h; simp [List.enumFrom] at h
  | cons x xs ih =>
    intro p h
    rw [List.enumFrom] at h
    rcases List.mem_cons.1 h with h' | h'
    · rw [h']; exact List.mem_cons_self _ _
    · exact List.mem_cons_of_mem _ (ih _ _ h')

/-- `enumFrom` preserves pairwise relations on the elements. -/
theorem pairwise_enumFrom {α : Type _} {R : α → α → Prop} :
    ∀ (n : ℕ) (l : List α), l.Pairwise R →
      (l.enumFrom n).Pairwise (fun p q => R p.2 q.2) := by
  intro n l
  induction l generalizing n with
  | nil => intro _; simp [List.enumFrom]
  | cons x xs ih =>
    intro h
    rw [List.enumFrom]
    rcases List.pairwise_cons.1 h with ⟨h1, h2⟩
    exact List.pairwise_cons.2
      ⟨fun q hq => h1 q.2 (snd_mem_enumFrom _ _ _ hq), ih _ h2⟩

/-- Whatever per-row update a rank-assigning map performs, the ranks it
writes are the enumeration indices. -/
theorem map_rank_map_enumFrom (f : ℕ × Row → Row)
    (hf : ∀ p, (f p).rank = p.1) :
    ∀ (n : ℕ) (l : List Row),
      ((l.enumFrom n).map f).map Row.rank = List.range' n l.length := by
  intro n l
  induction l generalizing n with
  | nil => rfl
  | cons x xs ih =>
    simp only [List.enumFrom, List.map_cons, List.length_cons, List.range'_succ, hf]
    exact congrArg _ (ih _)

/-- The preserved projection of a row: everything except `rank` and
`delta_places`. -/
def projRow (r : Row) : String × String × Int × Int × ℚ :=
  (r.team, r.abbr, r.w, r.l, r.pct)

/-- A rank-assigning map that only touches `rank` and `delta_places`
leaves the projections of an enumerated list unchanged. -/
theorem map_proj_map_enumFrom (f : ℕ × Row → Row)
    (hf : ∀ p, projRow (f p) = projRow p.2) :
    ∀ (n : ℕ) (l : List Row),
      ((l.enumFrom n).map f).map projRow = l.map projRow := by
  intro n l
  induction l generalizing n with
  | nil => rfl
  | cons x xs ih =>
    simp only [List.enumFrom, List.map_cons, hf]
    exact congrArg _ (ih _)

/-- The extraction loop yields one row per entry when it succeeds. -/
theorem rowsOf_length :
    ∀ (es : List J) (rows : List Row), rowsOf es = some rows →
      rows.length = es.length := by
  intro es
  induction es with
  | nil => intro rows h; cases h; rfl
  | cons e rest ih =>
    intro rows h
    rw [rowsOf] at h
    cases he : entryToRow? e with
    | none => rw [he] at h; cases h
    | some r =>
      rw [he] at h
      cases hr : rowsOf rest with
      | none => rw [hr] at h; cases h
      | some rs =>
        rw [hr] at h
        cases h
        simp [ih rs hr]

/-- The per-position updater inside `attach_trend`: write the 1-based
rank and the looked-up delta. -/
def attachF (yp : List (String × Nat)) (p : ℕ × Row) : Row :=
  { p.2 with
    rank := p.1
    delta_places :=
      match yp.lookup (norm_team_key p.2.team) with
      | none => none
      | some y => some ((y : Int) - (p.1 : Int)) }

/-- `attach_trend` is the sorted enumeration mapped through `attachF`. -/
theorem attach_trend_eq (rows : List Row) (yp : List (String × Nat)) :
    attach_trend rows yp =
      ((pySorted rows).enumFrom 1).map (attachF yp) := rfl

/-- C1: within a conference group, `attach_trend` assigns the ranks
1, 2, ..., n (a contiguous, duplicate-free sequence) along the order
that sorts descending by win percentage, ties descending by wins,
remaining ties ascending by display name. -/
theorem attach_trend_ranks_contiguous_sorted
    (rows : List Row) (yp : List (String × Nat)) :
    ((attach_trend rows yp).map Row.rank = List.range' 1 rows.length) ∧
    ((attach_trend rows yp).map Row.rank).Nodup ∧
    (attach_trend rows yp).Pairwise (fun a b =>
      b.pct < a.pct ∨ (a.pct = b.pct ∧
        (b.w < a.w ∨ (a.w = b.w ∧ a.team ≤ b.team)))) := by
  refine ⟨?_, ?_, ?_⟩
  · rw [attach_trend_eq, map_rank_map_enumFrom (attachF yp) (fun p => rfl) 1,
      pySorted_length]
  · rw [attach_trend_eq, map_rank_map_enumFrom (attachF yp) (fun p => rfl) 1]
    exact List.nodup_range' _ _
  · rw [attach_trend_eq]
    have he := pairwise_enumFrom 1 _ (pySorted_sorted rows)
    rw [List.pairwise_map]
    refine he.imp ?_
    intro p q hpq
    exact (rowLe_iff (attachF yp p) (attachF yp q)).1 hpq

/-- C10: `attach_trend` permutes its input rows, leaving the `team`,
`abbr`, `w`, `l` and `pct` fields of every row unchanged; only `rank`
and `delta_places` are written. -/
theorem attach_trend_permutes_preserving_fields
    (rows : List Row) (yp : List (String × Nat)) :
    ((attach_trend rows yp).map projRow).Perm (rows.map projRow) := by
  rw [attach_trend_eq, map_proj_map_enumFrom (attachF yp) (fun p => rfl) 1]
  exact (pySorted_perm rows).map projRow

/-- C2 as stated by the specification: `delta_places` would be
determined by looking the row's canonical abbreviation up in the
baseline map. -/
def rankDeltaByAbbrClaim (rows : List Row) (yp : List (String × Nat)) : Prop :=
  ∀ r ∈ attach_trend rows yp,
    r.delta_places =
      (yp.lookup (norm_team_key r.abbr)).map (fun y => (y : Int) - (r.rank : Int))

/-- A team record before ranking, as `_entries_to_rows` would build it
for a 10–2 Boston. -/
def bosRow : Row := ⟨"Boston Celtics", "BOS", 10, 2, mkRat 5 6, 0, none⟩

/-- C2 counterexample: with the canonical abbreviation `bos` present in
the baseline map, the code still sets `delta_places = none`, because it
looks up the normalized display name `bostonceltics`, not the
abbreviation. -/
theorem rankDeltaByAbbr_fails : ¬ rankDeltaByAbbrClaim [bosRow] [("bos", 1)] := by
  unfold rankDeltaByAbbrClaim
  decide

/-- C2 amended: for every ranked row, `delta_places` is `none` exactly
when the normalized display name (not the abbreviation) is absent from
the baseline map, and `baselineRank - currentRank` when present. -/
theorem attach_trend_delta_by_name (rows : List Row) (yp : List (String × Nat))
    (r : Row) (hr : r ∈ attach_trend rows yp) :
    (yp.lookup (norm_team_key r.team) = none → r.delta_places = none) ∧
    (∀ y : Nat, yp.lookup (norm_team_key r.team) = some y →
      r.delta_places = some ((y : Int) - (r.rank : Int))) := by
  rw [attach_trend_eq] at hr
  rcases List.mem_map.1 hr with ⟨p, hp, rfl⟩
  constructor
  · intro h
    simp only [attachF] at h ⊢
    rw [h]
  · intro y h
    simp only [attachF] at h ⊢
    rw [h]

/-- Witness for the amended C2 at a concrete input: Boston, baseline
rank 3 under the normalized name, current rank 1, delta `3 - 1`. -/
theorem attach_trend_delta_by_name_witness :
    (⟨"Boston Celtics", "BOS", 10, 2, mkRat 5 6, 1, some 2⟩ : Row).delta_places =
      some ((3 : Int) - (((1 : Nat) : Int))) :=
  (attach_trend_delta_by_name [bosRow] [("bostonceltics", 3)] _ (by decide)).2
    3 (by decide)

/-- C3 counterexample: the glyph for an absent delta and the glyph for
a zero delta are the same string, not distinct. -/
theorem arrow_none_eq_arrow_zero : arrow none = arrow (some 0) := rfl

/-- C3 amended: both an absent and a zero delta render the same neutral
glyph, while every nonzero delta renders a different glyph. -/
theorem arrow_neutral_glyph :
    arrow none = "⚪︎=" ∧ arrow (some 0) = "⚪︎=" ∧
    ∀ d : Int, d ≠ 0 → arrow (some d) ≠ "⚪︎=" := by
  refine ⟨rfl, rfl, ?_⟩
  intro d hd h
  have hwhite : ("⚪︎=" : String).data.head? = some '⚪' := by decide
  rcases lt_trichotomy d 0 with hneg | hz | hpos
  · have harr : arrow (some d) = "🔴▼" ++ toString d.natAbs := by
      simp [arrow, hneg, not_lt.2 hneg.le]
    rw [harr] at h
    have h2 : some '🔴' = some '⚪' := by
      rw [← hwhite, ← h, String.data_append,
        show "🔴▼".data = ['🔴', '▼'] from by decide]
      rfl
    exact absurd h2 (by decide)
  · exact hd hz
  · have harr : arrow (some d) = "🟢▲+" ++ toString d := by
      simp [arrow, hpos]
    rw [harr] at h
    have h2 : some '🟢' = some '⚪' := by
      rw [← hwhite, ← h, String.data_append,
        show "🟢▲+".data = ['🟢', '▲', '+'] from by decide]
      rfl
    exact absurd h2 (by decide)

/-- Witness for the amended C3: a delta of `+2` renders differently
from the neutral glyph. -/
theorem arrow_neutral_glyph_witness : arrow (some 2) ≠ "⚪︎=" :=
  arrow_neutral_glyph.2.2 2 (by decide)

/-- C9: the normalization used as the identity key is idempotent —
normalizing an already-normalized key returns it unchanged. -/
theorem norm_team_key_idempotent (s : String) :
    norm_team_key (norm_team_key s) = norm_team_key s := by
  unfold norm_team_key
  have hmap : ((s.data.map Char.toLower).filter Char.isAlphanum).map Char.toLower
      = (s.data.map Char.toLower).filter Char.isAlphanum := by
    have hfix : ∀ c ∈ (s.data.map Char.toLower).filter Char.isAlphanum,
        Char.toLower c = c := by
      intro c hc
      rcases List.mem_map.1 (List.mem_filter.1 hc).1 with ⟨c0, _, rfl⟩
      exact char_toLower_toLower c0
    calc ((s.data.map Char.toLower).filter Char.isAlphanum).map Char.toLower
        = ((s.data.map Char.toLower).filter Char.isAlphanum).map id :=
          List.map_congr_left hfix
      _ = (s.data.map Char.toLower).filter Char.isAlphanum := List.map_id _
  show String.mk ((((String.mk ((s.data.map Char.toLower).filter Char.isAlphanum)).data.map
      Char.toLower).filter Char.isAlphanum)) = _
  rw [show (String.mk ((s.data.map Char.toLower).filter Char.isAlphanum)).data
      = (s.data.map Char.toLower).filter Char.isAlphanum from rfl, hmap,
    List.filter_eq_self.2 (fun a ha => (List.mem_filter.1 ha).2)]

/-- The embedded `pct` is the field quotient `w / (w + l)` whenever at
least one game was played. -/
theorem pct_eq_div (w l : Int) (h : 0 < w + l) :
    pct w l = (w : ℚ) / ((w + l : Int) : ℚ) := by
  have h2 : (((w + l).toNat : Nat) : ℚ) = ((w + l : Int) : ℚ) := by
    rw [← Int.cast_natCast, Int.toNat_of_nonneg h.le]
  rw [pct, if_pos h, Rat.mkRat_eq_div, h2]

/-- Whether an entry carries both a truthy team object and truthy
stats, in the sense of the claim on skipping. -/
def hasTeamAndStats (e : J) : Bool :=
  match e with
  | .obj ekvs => truthyO (pyGet ekvs "team") && truthyO (pyGet ekvs "stats")
  | _ => false

/-- C4 as stated by the specification: the extractor would never error
and would emit records only for the entries that have both a team
object and stats. -/
def skippedEntriesClaim (entries : List J) : Prop :=
  (_entries_to_rows entries).map List.length =
    some (entries.countP hasTeamAndStats)

/-- C4 counterexample: a single entry `{}` with neither team nor stats
is not skipped — the extractor emits one (defaulted) record for it. -/
theorem skippedEntries_fails : ¬ skippedEntriesClaim [J.obj []] := by
  unfold skippedEntriesClaim
  decide

/-- C4 amended: entries lacking a team object and stats are not
skipped and cause no error — they contribute a record with defaulted
fields (empty names, zero wins and losses, zero win fraction) — and on
success the extractor emits exactly one record per entry. -/
theorem entries_defaulted_not_skipped :
    (∀ ekvs : List (String × J), jGet ekvs "team" = none →
      jGet ekvs "stats" = none →
      entryToRow? (J.obj ekvs) = some ⟨"", "", 0, 0, 0, 0, none⟩) ∧
    (∀ (entries : List J) (rows : List Row),
      _entries_to_rows entries = some rows → rows.length = entries.length) := by
  constructor
  · intro ekvs ht hs
    simp [entryToRow?, teamObjOf, displayOf, abbrOf, statsMapOf, statsListOf,
      _stats_to_map, ht, hs, pyOrJ, pyGet, jGet, jFlat, pyOr, truthyO, jTruthy,
      pyStrOr, pyIntOr0, statGet, pct]
  · intro entries rows h
    rw [_entries_to_rows] at h
    cases hro : rowsOf entries with
    | none => rw [hro] at h; cases h
    | some rows0 =>
      rw [hro] at h
      simp only [Option.map_some'] at h
      injection h with h
      rw [← h, List.length_map, List.enumFrom_length, pySorted_length,
        rowsOf_length entries rows0 hro]

/-- Witness for the amended C4: the extractor turns the entry `{}`
into the defaulted record, and emits one record for the one entry. -/
theorem entries_defaulted_not_skipped_witness :
    entryToRow? (J.obj []) = some ⟨"", "", 0, 0, 0, 0, none⟩ ∧
    ([(⟨"", "", 0, 0, 0, 1, none⟩ : Row)] : List Row).length = [J.obj []].length :=
  ⟨entries_defaulted_not_skipped.1 [] rfl rfl,
   entries_defaulted_not_skipped.2 [J.obj []] [⟨"", "", 0, 0, 0, 1, none⟩]
     (by decide)⟩

/-- C5: the extracted win percentage is the upstream `winPercent` value
when present and float-parseable, and the derived `pct w l` otherwise;
`pct` itself is the quotient `w / (w + l)` for a positive number of
games and `0` for none. -/
theorem winPct_policy :
    (∀ (ekvs : List (String × J)) (m : List (J × Option J)) (r : Row),
      statsMapOf ekvs = some m → entryToRow? (J.obj ekvs) = some r →
        ((statGet m "winPercent" = none → r.pct = pct r.w r.l) ∧
         (∀ v, statGet m "winPercent" = some v → pyFloat v = none →
            r.pct = pct r.w r.l) ∧
         (∀ v q, statGet m "winPercent" = some v → pyFloat v = some q →
            r.pct = q))) ∧
    (∀ w l : Int, 0 < w + l → pct w l = (w : ℚ) / ((w + l : Int) : ℚ)) ∧
    pct 0 0 = 0 := by
  refine ⟨?_, pct_eq_div, by simp [pct]⟩
  intro ekvs m r hm hr
  rw [entryToRow?] at hr
  simp only [bind, Option.bind_eq_some] at hr
  rcases hr with ⟨tkvs, h1, display, h2, abbr, h3, m', h4, w, h5, l, h6, hr⟩
  rw [hm] at h4
  injection h4 with h4
  subst h4
  simp only [pure] at hr
  injection hr with hr
  subst hr
  refine ⟨?_, ?_, ?_⟩
  · intro h
    simp [h]
  · intro v hv hf
    simp [hv, hf]
  · intro v q hv hf
    simp [hv, hf]

/-- A concrete entry carrying an upstream `winPercent` of `3/4`
alongside a 9–3 record. -/
def wpEntry : List (String × J) :=
  [("stats", J.arr
    [J.obj [("name", J.str "winPercent"), ("value", J.num (mkRat 3 4))],
     J.obj [("name", J.str "wins"), ("value", J.num 9)],
     J.obj [("name", J.str "losses"), ("value", J.num 3)]])]

/-- The stats map the extractor builds for `wpEntry` (newest binding
first). -/
def wpMap : List (J × Option J) :=
  [(J.str "losses", some (J.num 3)),
   (J.str "wins", some (J.num 9)),
   (J.str "winPercent", some (J.num (mkRat 3 4)))]

/-- Witness for C5: with `winPercent = 3/4` upstream, the extracted
record's `pct` is exactly `3/4` (not the derived `9/12`). -/
theorem winPct_policy_witness :
    (⟨"", "", 9, 3, mkRat 3 4, 0, none⟩ : Row).pct = mkRat 3 4 :=
  (winPct_policy.1 wpEntry wpMap ⟨"", "", 9, 3, mkRat 3 4, 0, none⟩
    rfl (by decide)).2.2 (J.num (mkRat 3 4)) (mkRat 3 4)
    rfl rfl

/-- C6: when the name-based partition rules all fail (steps 1–3 leave
both buckets empty) and the combined extraction yields at least 30
ranked rows, the partitioner returns the first 15 rows as the East
group and the next 15 as the West group. -/
theorem positional_fallback (data : J) (rall : List Row)
    (h1 : step1 (gatherNodes data) = some ([], []))
    (h2 : step2 data [] [] = some ([], []))
    (h3 : step3 (gatherNodes data) [] [] = some ([], []))
    (h4 : entriesRowsAll (gatherNodes data) = some rall)
    (h30 : 30 ≤ rall.length) :
    espnPartition data = some (rall.take 15, (rall.drop 15).take 15) := by
  have e1 : espnPartition data
      = (step2 data [] []).bind (fun ew2 =>
          (step3 (gatherNodes data) ew2.1 ew2.2).bind (fun ew3 =>
            step4 (gatherNodes data) ew3.1 ew3.2)) := by
    rw [espnPartition, h1]
    rfl
  have e2 : espnPartition data
      = (step3 (gatherNodes data) [] []).bind (fun ew3 =>
          step4 (gatherNodes data) ew3.1 ew3.2) := by
    rw [e1, h2]
    rfl
  have e3 : espnPartition data = step4 (gatherNodes data) [] [] := by
    rw [e2, h3]
    rfl
  rw [e3, step4]
  simp [h4, h30]

/-- The 30 conference-nameless blank entries of the C6 witness. -/
def doc30 : J :=
  J.obj [("standings", J.obj [("entries", J.arr (List.replicate 30 (J.obj [])))])]

/-- The 30 ranked blank rows the extractor produces for `doc30`. -/
def rall30 : List Row :=
  (List.range' 1 30).map (fun i => ⟨"", "", 0, 0, 0, i, none⟩)

/-- Witness for C6: on a document with 30 entries and no conference
names anywhere, the partitioner splits positionally 15/15. -/
theorem positional_fallback_witness :
    espnPartition doc30 = some (rall30.take 15, (rall30.drop 15).take 15) :=
  positional_fallback doc30 rall30 (by decide) (by decide) (by decide)
    (by decide) (by decide)

/-- An entry whose `wins` stat is the non-numeric string `"x"`, which
Python's `int()` rejects. -/
def badStatEntry : J :=
  J.obj [("stats", J.arr [J.obj [("name", J.str "wins"), ("value", J.str "x")]])]

/-- A standings document with a single nameless node holding
`badStatEntry`: no partition rule can succeed on it. -/
def badDoc : J :=
  J.obj [("standings", J.obj [("entries", J.arr [badStatEntry])])]

/-- C7 counterexample: on `badDoc` no conference name exists and fewer
than 30 entries are present, so no partition rule succeeds — yet the
fetch does not return empty groups: row extraction raises an uncaught
`ValueError` (modelled `none`), aborting the run, both at the
partitioner and through the whole fetch. -/
theorem partition_guarantee_fails :
    espnPartition badDoc = none ∧
    fetchEspn (.resp 200 (some badDoc) "") .exc = none := by
  constructor
  · decide
  · decide

/-- C7 amended: a failed or empty fetch yields both groups empty, and
when every partition rule fails on a fetched document while row
extraction raises no exception, both groups are likewise returned
empty — but (per the counterexample) an extraction exception escapes
instead of producing empty groups. -/
theorem partition_failure_returns_empty :
    (∀ o1 o2 : HttpOutcome, jTruthy (_get_json o1) = false →
      jTruthy (_get_json o2) = false → fetchEspn o1 o2 = some ([], [])) ∧
    (∀ (data : J) (rall : List Row),
      step1 (gatherNodes data) = some ([], []) →
      step2 data [] [] = some ([], []) →
      step3 (gatherNodes data) [] [] = some ([], []) →
      entriesRowsAll (gatherNodes data) = some rall →
      rall.length < 30 →
      espnPartition data = some ([], [])) := by
  constructor
  · intro o1 o2 hg1 hg2
    rw [fetchEspn]
    simp [hg1, hg2]
  · intro data rall h1 h2 h3 h4 h30
    have e1 : espnPartition data
        = (step2 data [] []).bind (fun ew2 =>
            (step3 (gatherNodes data) ew2.1 ew2.2).bind (fun ew3 =>
              step4 (gatherNodes data) ew3.1 ew3.2)) := by
      rw [espnPartition, h1]
      rfl
    have e2 : espnPartition data
        = (step3 (gatherNodes data) [] []).bind (fun ew3 =>
            step4 (gatherNodes data) ew3.1 ew3.2) := by
      rw [e1, h2]
      rfl
    have e3 : espnPartition data = step4 (gatherNodes data) [] [] := by
      rw [e2, h3]
      rfl
    rw [e3, step4]
    simp [h4, Nat.not_le.2 h30]

/-- Witness for the amended C7: two failed endpoints give empty groups,
and a truthy document with one nameless 2-entry standings node (all
rules fail, fewer than 30 rows) also gives empty groups. -/
theorem partition_failure_returns_empty_witness :
    fetchEspn .exc .exc = some ([], []) ∧
    espnPartition (J.obj [("standings", J.obj [("entries",
      J.arr [J.obj [], J.obj []])])]) = some ([], []) :=
  ⟨partition_failure_returns_empty.1 .exc .exc (by decide) (by decide),
   partition_failure_returns_empty.2
     (J.obj [("standings", J.obj [("entries", J.arr [J.obj [], J.obj []])])])
     [⟨"", "", 0, 0, 0, 1, none⟩, ⟨"", "", 0, 0, 0, 2, none⟩]
     (by decide) (by decide) (by decide) (by decide) (by decide)⟩

/-- C8: a raised exception or a non-200 status yields the empty dict
from `_get_json` and empty position maps from the baseline fetch,
rather than propagating an exception. -/
theorem http_errors_yield_empty :
    (_get_json .exc = J.obj []) ∧
    (∀ (s : Nat) (b : Option J) (t : String), s ≠ 200 →
      _get_json (.resp s b t) = J.obj []) ∧
    (∀ extract, fetch_bbr_positions extract .exc = ([], [])) ∧
    (∀ extract (s : Nat) (b : Option J) (t : String), s ≠ 200 →
      fetch_bbr_positions extract (.resp s b t) = ([], [])) := by
  refine ⟨rfl, ?_, fun _ => rfl, ?_⟩
  · intro s b t hs
    simp [_get_json, hs]
  · intro extract s b t hs
    simp [fetch_bbr_positions, hs]

/-- Witness for C8: a 404 response yields the empty dict and empty
position maps. -/
theorem http_errors_yield_empty_witness :
    _get_json (.resp 404 none "") = J.obj [] ∧
    fetch_bbr_positions (fun _ _ => []) (.resp 404 none "page") = ([], []) :=
  ⟨http_errors_yield_empty.2.1 404 none "" (by decide),
   http_errors_yield_empty.2.2.2 (fun _ _ => []) 404 none "page" (by decide)⟩
